import Mathlib

/-!
# Verification of the checkpointed restore engine of `3_restore_messages.py`

This file gives a shallow embedding of the checkpoint/resume/retry core of
the repository's restore script (`src/3_restore_messages.py`) and proves or
refutes the frozen claims about it.

Modelling conventions:

* Pure Python functions become Lean functions; the file system is passed
  explicitly (`String → Option FileData` for backup files, an
  `Option CkptFile` / `Option FileContent` for the checkpoint path).
* External effects (the Telegram transport, wall-clock time, the interactive
  prompts) are inputs: the transport is a function from message index and
  attempt number to the outcome of that call, timestamps are a string
  parameter, and the user's answers are parameters.
* `hashlib.sha256` over a string is an abstract digest function
  `H : String → String`; nothing about it is assumed except where a claim
  needs collision-freeness, which then appears as an explicit injectivity
  hypothesis.  `compute_file_hash` of a file is the `hash` field recorded in
  that file's `FileData` (the digest of its bytes).
* `Path(f).resolve()` is an abstract path-normalising function
  `resolve : String → String`.
* Machine integers do not overflow in the relevant ranges (Python ints are
  unbounded), so counters are `Int`/`Nat`; `time.time()` differences are
  exact rationals.
-/

/-! ## Rate-limited retry executor (`send_message_with_retry`)

The Python source (lines 296–342):

```
for attempt in range(max_retries):
    try:
        ... send ...
        return True
    except FloodWaitError as e:
        await asyncio.sleep(e.seconds)
    except SlowModeWaitError as e:
        await asyncio.sleep(e.seconds)
    except Exception as e:
        if attempt < max_retries - 1:
            await asyncio.sleep(5)
        else:
            return False
return False
```

One transport call is made per loop iteration; the outcome of the call at
attempt `a` is `trace a`.  `SendResult` records the returned boolean, the
sequence of sleeps performed (in seconds), and the number of transport calls
made. -/

inductive SendOutcome where
  | ok
  | floodWait (s : Nat)
  | slowModeWait (s : Nat)
  | error
deriving DecidableEq, Repr

structure SendResult where
  success : Bool
  sleeps : List Nat
  calls : Nat
deriving DecidableEq, Repr

/-- The `for attempt in range(max_retries)` loop of
`send_message_with_retry`, recursing on the list of loop indices still to
run.  Faithful to the source: every iteration makes exactly one transport
call; `FloodWaitError`/`SlowModeWaitError` sleep the server-supplied
duration and fall through to the next iteration of the `for`; a generic
exception sleeps 5 seconds unless `attempt = max_retries - 1`, in which
case `False` is returned immediately; falling off the end of the `for`
returns `False`. -/
def sendGo (trace : Nat → SendOutcome) (maxRetries : Nat) : List Nat → SendResult
  | [] => ⟨false, [], 0⟩
  | attempt :: rest =>
    match trace attempt with
    | .ok => ⟨true, [], 1⟩
    | .floodWait s =>
        let r := sendGo trace maxRetries rest
        ⟨r.success, s :: r.sleeps, r.calls + 1⟩
    | .slowModeWait s =>
        let r := sendGo trace maxRetries rest
        ⟨r.success, s :: r.sleeps, r.calls + 1⟩
    | .error =>
        if attempt < maxRetries - 1 then
          let r := sendGo trace maxRetries rest
          ⟨r.success, 5 :: r.sleeps, r.calls + 1⟩
        else ⟨false, [], 1⟩

/-- `send_message_with_retry` (default `max_retries = 3`): run the retry
loop over the attempt indices `range(max_retries)`. -/
def send_message_with_retry (trace : Nat → SendOutcome) (maxRetries : Nat := 3) : SendResult :=
  sendGo trace maxRetries (List.range maxRetries)

/-! ## JSON values and the on-disk checkpoint file

`load_checkpoint`/`save_checkpoint` exchange a JSON document with the
checkpoint path.  `JVal` is the value a successful `json.load` returns
(Python `dict`/`list`/`str`/`int`/`float`/`bool`/`None`); floats are exact
rationals, since `json.dump` followed by `json.load` reproduces a Python
float exactly (shortest round-trip repr).  A file whose bytes the
text-mode reader and `json.load` cannot turn into such a value is one of
the three non-value contents of `FileContent`, each matching a different
Python exception. -/

inductive JVal where
  | null
  | bool (b : Bool)
  | int (n : Int)
  | float (q : Rat)
  | str (s : String)
  | arr (elems : List JVal)
  | obj (fields : List (String × JVal))

/-- What the checkpoint path can hold, as seen through
`open(..., 'r', encoding='utf-8')` + `json.load`:

* `notUtf8` — bytes that are not valid UTF-8: the text-mode read inside
  `json.load` raises `UnicodeDecodeError` (a `ValueError` that is neither
  `json.JSONDecodeError` nor `IOError`);
* `garbage` — valid UTF-8 text that is not valid JSON:
  `json.JSONDecodeError`;
* `unreadable` — the read itself fails: `IOError`;
* `json j` — bytes that decode and parse to the value `j`. -/
inductive FileContent where
  | notUtf8
  | garbage
  | unreadable
  | json (j : JVal)

/-- The exceptions `load_checkpoint` can let escape (neither is a
`json.JSONDecodeError` or an `IOError`, the only classes its `except`
clause names). -/
inductive LoadError where
  | unicodeDecodeError
  | attributeError
deriving DecidableEq, Repr

/-- Python `dict.get(k)` on an object decoded from JSON: duplicate keys in
the JSON text collapse with the last occurrence winning, so lookup scans the
tail of the field list first. -/
def jget (k : String) : List (String × JVal) → Option JVal
  | [] => none
  | (k', v) :: rest =>
    match jget k rest with
    | some r => some r
    | none => if k' = k then some v else none

/-- Python `v == n` for a JSON-decoded value `v` and an int literal `n`:
numeric types compare by value across `int`/`float`/`bool` (bools are ints
in Python); every other type compares unequal to an int. -/
def pyEqInt (v : JVal) (n : Int) : Bool :=
  match v with
  | .int m => m == n
  | .float q => q == (n : Rat)
  | .bool b => (if b then (1 : Int) else 0) == n
  | _ => false

def CHECKPOINT_VERSION : Int := 1

/-- The in-memory checkpoint record, with the fields (in the order) built by
`create_checkpoint` (source lines 133–150).  `elapsed_seconds` is a Python
float, modelled as an exact rational. -/
structure Checkpoint where
  version : Int
  created_at : String
  updated_at : String
  operation_hash : String
  target_group_id : Int
  target_group_title : String
  source_files : List String
  source_files_hashes : List (String × String)
  merge_enabled : Bool
  total_messages : Int
  last_successful_index : Int
  last_message_id : Option Int
  success_count : Int
  failed_count : Int
  failed_message_ids : List (Option Int)
  elapsed_seconds : Rat
deriving DecidableEq, Repr

def jsonOfOptInt : Option Int → JVal
  | none => .null
  | some i => .int i

/-- The JSON document `json.dump` writes for a checkpoint dict: the same
sixteen keys, in the dict's insertion order. -/
def checkpointToJson (c : Checkpoint) : JVal :=
  .obj [("version", .int c.version),
        ("created_at", .str c.created_at),
        ("updated_at", .str c.updated_at),
        ("operation_hash", .str c.operation_hash),
        ("target_group_id", .int c.target_group_id),
        ("target_group_title", .str c.target_group_title),
        ("source_files", .arr (c.source_files.map .str)),
        ("source_files_hashes", .obj (c.source_files_hashes.map (fun ph => (ph.1, .str ph.2)))),
        ("merge_enabled", .bool c.merge_enabled),
        ("total_messages", .int c.total_messages),
        ("last_successful_index", .int c.last_successful_index),
        ("last_message_id", jsonOfOptInt c.last_message_id),
        ("success_count", .int c.success_count),
        ("failed_count", .int c.failed_count),
        ("failed_message_ids", .arr (c.failed_message_ids.map jsonOfOptInt)),
        ("elapsed_seconds", .float c.elapsed_seconds)]

/-- `load_checkpoint` (source lines 61–74) at the level of the bytes on the
checkpoint path.

* path absent → `None`;
* `json.JSONDecodeError` (valid UTF-8, invalid JSON) or `IOError` →
  caught, `None`;
* bytes that are not valid UTF-8: `json.load` raises
  `UnicodeDecodeError`, which is caught by neither `except` clause and
  propagates;
* parsed object whose `version` entry does not Python-equal
  `CHECKPOINT_VERSION` (including a missing entry, where `.get` gives
  `None`) → `None`;
* parsed object with matching version → the parsed dict itself;
* parsed *non-object* JSON (array, string, number, `null`, …): the value
  has no `.get` attribute, so `checkpoint.get('version')` raises
  `AttributeError`, which is caught by neither `except` clause and
  propagates. -/
def load_checkpoint (file : Option FileContent) : Except LoadError (Option JVal) :=
  match file with
  | none => .ok none
  | some .notUtf8 => .error .unicodeDecodeError
  | some .garbage => .ok none
  | some .unreadable => .ok none
  | some (.json (.obj fields)) =>
    match jget "version" fields with
    | some v => if pyEqInt v CHECKPOINT_VERSION then .ok (some (.obj fields)) else .ok none
    | none => .ok none
  | some (.json _) => .error .attributeError

def stampUpdated (c : Checkpoint) (now : String) : Checkpoint :=
  { c with updated_at := now }

/-- `save_checkpoint` (source lines 77–93), result level: set
`checkpoint['updated_at']` to the current time (mutating the caller's
record), then atomically replace the checkpoint path with the serialized
record.  Returns the mutated record and the new file content. -/
def save_checkpoint (c : Checkpoint) (now : String) : Checkpoint × FileContent :=
  (stampUpdated c now, .json (checkpointToJson (stampUpdated c now)))

/-- Temporary-file state during `save_checkpoint`: just created by
`tempfile.mkstemp`, partially written (the crash window during
`json.dump`), or fully written and closed. -/
inductive TempState where
  | created
  | halfWritten
  | written (j : JVal)

/-- The two paths `save_checkpoint` touches: the canonical checkpoint path
and its temporary file. -/
structure SaveFS where
  canonical : Option FileContent
  temp : Option TempState

/-- The successive file-system states during one `save_checkpoint` call
(source lines 77–93), starting from canonical content `old`:

1. before the call;
2. after `tempfile.mkstemp` (temp exists in the checkpoint's directory);
3. during `json.dump` into the temp file;
4. (write succeeds) temp holds the complete serialized record;
5. after `shutil.move`: temp and canonical path are in the same directory,
   hence on the same file system, so the move is `os.rename` — a single
   atomic directory operation replacing the canonical path.

If the write raises (`writeOk = false`), the `except` branch unlinks the
temp file and re-raises, leaving the canonical path untouched. -/
def save_checkpoint_states (c : Checkpoint) (now : String) (old : Option FileContent)
    (writeOk : Bool) : List SaveFS × Except Unit Checkpoint :=
  let serialized := checkpointToJson (stampUpdated c now)
  if writeOk then
    ([⟨old, none⟩, ⟨old, some .created⟩, ⟨old, some .halfWritten⟩,
      ⟨old, some (.written serialized)⟩, ⟨some (.json serialized), none⟩],
     .ok (stampUpdated c now))
  else
    ([⟨old, none⟩, ⟨old, some .created⟩, ⟨old, some .halfWritten⟩, ⟨old, none⟩],
     .error ())

/-! ## Operation identity (`compute_operation_hash`)

The source (lines 50–58) builds
`data = {'files': sorted([str(Path(f).resolve()) for f in backup_files]),
'target': target_group_id, 'merge': merge}`, serializes it with
`json.dumps(data, sort_keys=True)` (keys come out in the order
`files`, `merge`, `target`; separators are `", "` and `": "`) and digests
the text with SHA-256.  The digest is the abstract `H : String → String`;
the serialized text is rebuilt here exactly, with `intDecStr` playing
`str(int)` (Python's decimal rendering) and the file paths assumed to
contain no characters `json.dumps` would escape (escaping is itself
injective, so nothing below depends on this). -/

def digitChar (d : Nat) : Char := Char.ofNat (48 + d)

/-- Base-10 digits of `n`, least significant first, with explicit fuel
(any fuel ≥ `n` computes them; see `natDigits_eq_digits`). -/
def natDigitsAux : Nat → Nat → List Nat
  | 0, _ => []
  | _ + 1, 0 => []
  | fuel + 1, n + 1 => ((n + 1) % 10) :: natDigitsAux fuel ((n + 1) / 10)

def natDigits (n : Nat) : List Nat := natDigitsAux n n

/-- Decimal digits of a natural number, most significant first. -/
def natDecChars (n : Nat) : List Char :=
  if n = 0 then ['0'] else ((natDigits n).map digitChar).reverse

/-- Python `str` of an int: optional minus sign followed by decimal digits. -/
def intDecChars : Int → List Char
  | .ofNat n => natDecChars n
  | .negSucc m => '-' :: natDecChars (m + 1)

def intDecStr (i : Int) : String := ⟨intDecChars i⟩

def jsonStrLit (s : String) : String := "\"" ++ s ++ "\""

/-- `json.dumps({'files': files, 'merge': merge, 'target': target},
sort_keys=True)` for an already-sorted path list. -/
def opContent (files : List String) (target : Int) (merge : Bool) : String :=
  "\x7b\"files\": [" ++ String.intercalate ", " (files.map jsonStrLit)
    ++ "], \"merge\": " ++ (if merge then "true" else "false")
    ++ ", \"target\": " ++ intDecStr target ++ "\x7d"

/-- Python `s1 <= s2`: lexicographic comparison of the code-point
sequences. -/
def charsLe : List Char → List Char → Bool
  | [], _ => true
  | _ :: _, [] => false
  | a :: as, b :: bs =>
    if a.toNat < b.toNat then true
    else if b.toNat < a.toNat then false
    else charsLe as bs

def pyStrLe (a b : String) : Bool := charsLe a.data b.data

/-- Python `sorted` on strings: a stable ascending sort (lexicographic on
code points).  Insertion sort is stable and sortedness plus stability
determine the output uniquely, so this is the same list `sorted` returns. -/
def sortStrings (l : List String) : List String :=
  List.insertionSort (fun a b : String => pyStrLe a b = true) l

/-- `compute_operation_hash` (source lines 50–58). -/
def compute_operation_hash (H : String → String) (resolve : String → String)
    (backup_files : List String) (target_group_id : Int) (merge : Bool) : String :=
  "sha256:" ++ H (opContent (sortStrings (backup_files.map resolve)) target_group_id merge)

/-! ## Backup files, integrity hashes, validation and checkpoint creation

A backup file on disk is a `FileData`: the ordered message list its JSON
parses to, and `hash`, the `compute_file_hash` digest (`sha256:` + hex of
the streamed SHA-256) of its current bytes.  `files : String → Option
FileData` answers both existence checks (`Path(p).exists()`) and
`compute_file_hash(p)`; a recorded hash matches the file exactly when it
equals the `hash` field.  Only the fields the restore driver reads are
kept for a message: its `message_id` (reporting) and `date` (ordering). -/

structure Message where
  message_id : Option Int
  date : Option String
deriving DecidableEq, Repr

structure FileData where
  messages : List Message
  hash : String
deriving DecidableEq, Repr

/-- The sort key of line 386: `x['date'] if x.get('date') else ''` (a
missing, `None` or empty date sorts as the empty string). -/
def dateKey (m : Message) : String :=
  match m.date with
  | none => ""
  | some d => d

/-- `all_messages.sort(key=...)`: Python's sort is stable; insertion sort
is the stable ascending sort, so it produces the same list. -/
def msort (l : List Message) : List Message :=
  List.insertionSort (fun a b : Message => pyStrLe (dateKey a) (dateKey b) = true) l

/-- Message loading (source lines 365–377) followed by the optional
merge-sort (lines 384–386): missing files are skipped with a warning, the
rest contribute their messages in file order. -/
def orderedMessages (files : String → Option FileData) (backup_files : List String)
    (merge : Bool) : List Message :=
  let all := (backup_files.map (fun f =>
    match files f with
    | none => []
    | some fd => fd.messages)).flatten
  if merge then msort all else all

/-- The per-file integrity loop of `validate_checkpoint` (source lines
112–117): for each recorded `(path, hash)` pair, the file must still exist
and its current content hash must equal the recorded one.  Returns
`(is_valid, reason)`. -/
def checkSourceFiles (files : String → Option FileData) :
    List (String × String) → Bool × String
  | [] => (true, "")
  | (p, h) :: rest =>
    match files p with
    | none => (false, "Source file no longer exists: " ++ p)
    | some fd =>
      if fd.hash = h then checkSourceFiles files rest
      else (false, "Source file was modified: " ++ p)

/-- `validate_checkpoint` (source lines 103–119). -/
def validate_checkpoint (files : String → Option FileData) (H resolve : String → String)
    (cp : Checkpoint) (backup_files : List String) (target_group_id : Int)
    (merge : Bool) : Bool × String :=
  if cp.operation_hash = compute_operation_hash H resolve backup_files target_group_id merge
  then checkSourceFiles files cp.source_files_hashes
  else (false, "Operation parameters differ (different files, target, or merge setting)")

/-- The dict comprehension `{f: compute_file_hash(Path(f)) for f in
resolved_files}` (source line 131): `compute_file_hash` opens each file,
so a missing path raises `FileNotFoundError` (`none` here) and the
comprehension aborts. -/
def hashAll (files : String → Option FileData) : List String → Option (List (String × String))
  | [] => some []
  | p :: rest =>
    match files p with
    | none => none
    | some fd => (hashAll files rest).map (fun hs => (p, fd.hash) :: hs)

/-- `create_checkpoint` (source lines 122–150): hash every resolved input
path (raising if one is missing), then build the fresh record. -/
def create_checkpoint (files : String → Option FileData) (H resolve : String → String)
    (now : String) (backup_files : List String) (target_group_id : Int)
    (target_group_title : String) (merge : Bool) (total_messages : Int) :
    Option Checkpoint :=
  (hashAll files (backup_files.map resolve)).map fun hs =>
    { version := CHECKPOINT_VERSION
      created_at := now
      updated_at := now
      operation_hash := compute_operation_hash H resolve backup_files target_group_id merge
      target_group_id := target_group_id
      target_group_title := target_group_title
      source_files := backup_files.map resolve
      source_files_hashes := hs
      merge_enabled := merge
      total_messages := total_messages
      last_successful_index := -1
      last_message_id := none
      success_count := 0
      failed_count := 0
      failed_message_ids := []
      elapsed_seconds := 0 }

/-! ## The batch driver (`restore_messages`)

Driver-level view of the checkpoint path: the records this program writes
are well formed, so the file either holds a serialized `Checkpoint` or
something `load_checkpoint` treats as absent (`stale`: an `IOError` on
read, or valid UTF-8 that fails JSON parsing).  The byte-level behaviour
of load/save — including the two propagating error paths (non-UTF-8
bytes, non-object JSON, neither exercised by a driver claim) and the
atomic replace — is modelled above on `FileContent`; `c8/c6/c3` connect
the two views.

External inputs of one run:
* `cfgOk` — the three environment variables are set (lines 356–362);
* `mode` — `CHECKPOINT_MODE` (`prompt`/`resume`/`restart`);
* `promptChoice` — what `prompt_resume_or_restart` eventually returns;
* `confirmYes` — the answer to the final `Proceed? (yes/no)` prompt;
* `transport i a` — outcome of the `a`-th transport call for message
  index `i`;
* `targetId`, `targetTitle` — the resolved target group entity;
* `now` — `datetime.now().isoformat()` during this run;
* `elapsedAt i` — value of `time.time() - start_time` when the checkpoint
  is updated after item `i`.

Not modelled (none of the claims depend on them): Python's negative-index
wraparound for a hand-crafted checkpoint with `last_successful_index < -1`
(the program itself only writes indices ≥ -1, see `c2`'s hypothesis),
media-file resolution (both delay constants are 4.0 and the send outcome
is already abstract), connection errors, and `KeyboardInterrupt`. -/

inductive CkptFile where
  | record (c : Checkpoint)
  | stale
deriving DecidableEq, Repr

/-- Driver-level `load_checkpoint`: a well-formed record loads exactly when
its schema version matches; anything else is treated as absent. -/
def load_checkpoint_s (file : Option CkptFile) : Option Checkpoint :=
  match file with
  | some (.record c) => if c.version = CHECKPOINT_VERSION then some c else none
  | some .stale => none
  | none => none

inductive Mode where
  | prompt
  | resume
  | restart
deriving DecidableEq, Repr

inductive Choice where
  | resume
  | restart
  | cancel
deriving DecidableEq, Repr

/-- Lines 416–423: `CHECKPOINT_MODE` forces the action, otherwise the
interactive prompt supplies it. -/
def chosenAction (mode : Mode) (promptChoice : Choice) : Choice :=
  match mode with
  | .resume => .resume
  | .restart => .restart
  | .prompt => promptChoice

inductive RunOutcome where
  | configError
  | noMessages
  | cancelled
  | declined
  | aborted
  | completed
deriving DecidableEq, Repr

/-- Observable result of one `restore_messages` run: the final state of the
checkpoint file, how the run ended, the message indices on which the
transport was invoked (in order), the per-index send results, the final
failure bookkeeping, and the successive records passed to
`save_checkpoint` inside the send loop. -/
structure RunResult where
  checkpointFile : Option CkptFile
  outcome : RunOutcome
  attempted : List Int
  results : List (Int × Bool)
  failed_ids : List (Option Int)
  success_count : Int
  failed_count : Int
  saved : List Checkpoint
deriving DecidableEq, Repr

def mkNoEffect (file : Option CkptFile) (o : RunOutcome) : RunResult :=
  ⟨file, o, [], [], [], 0, 0, []⟩

/-- `n - s` consecutive integers starting at `s`. -/
def intRangeAux (s : Int) : Nat → List Int
  | 0 => []
  | k + 1 => s :: intRangeAux (s + 1) k

/-- Python `range(start, n)` over integers: `start, start+1, …, n-1`
(empty when `start ≥ n`). -/
def intRange (s : Int) (n : Nat) : List Int :=
  intRangeAux s ((n : Int) - s).toNat

/-- Python `all_messages[idx]` for an in-range index (negative indices
count from the end). -/
def pyIndex (msgs : List Message) (i : Int) : Message :=
  if 0 ≤ i then msgs.getD i.toNat ⟨none, none⟩
  else msgs.getD ((msgs.length : Int) + i).toNat ⟨none, none⟩

structure LoopState where
  cp : Checkpoint
  success_count : Int
  failed_count : Int
  failed_ids : List (Option Int)
  attempted : List Int
  results : List (Int × Bool)
  saved : List Checkpoint
deriving DecidableEq, Repr

/-- One iteration of the send loop (source lines 467–515): send with
retries, update the counters and the failed-id list, write every updated
field into the checkpoint dict, and `save_checkpoint` it (which stamps
`updated_at`).  `elapsedAt idx` is the external input
`prior_elapsed + (time.time() - start_time)` as evaluated at line 504
after item `idx`.  The inter-item delay has no observable state. -/
def processItem (transport : Int → Nat → SendOutcome) (msgs : List Message) (now : String)
    (elapsedAt : Int → Rat) (st : LoopState) (idx : Int) : LoopState :=
  let m := pyIndex msgs idx
  let ok := (send_message_with_retry (transport idx)).success
  let success_count := if ok then st.success_count + 1 else st.success_count
  let failed_count := if ok then st.failed_count else st.failed_count + 1
  let failed_ids := if ok then st.failed_ids else st.failed_ids ++ [m.message_id]
  let cp' : Checkpoint :=
    { st.cp with
      updated_at := now
      last_successful_index := idx
      last_message_id := m.message_id
      success_count := success_count
      failed_count := failed_count
      failed_message_ids := failed_ids
      elapsed_seconds := elapsedAt idx }
  ⟨cp', success_count, failed_count, failed_ids,
   st.attempted ++ [idx], st.results ++ [(idx, ok)], st.saved ++ [cp']⟩

/-- The send loop (lines 467–525) followed by `clear_checkpoint` on
completion (line 528). -/
def runSendLoop (transport : Int → Nat → SendOutcome) (msgs : List Message) (now : String)
    (elapsedAt : Int → Rat) (cp : Checkpoint) (start : Int)
    (success0 failed0 : Int) (fids0 : List (Option Int)) : RunResult :=
  let st := (intRange start msgs.length).foldl
      (processItem transport msgs now elapsedAt)
      ⟨cp, success0, failed0, fids0, [], [], []⟩
  ⟨none, .completed, st.attempted, st.results, st.failed_ids,
   st.success_count, st.failed_count, st.saved⟩

/-- The fresh-checkpoint path (lines 445–461): create a new record
(aborting into the generic handler if a resolved input file is missing),
persist it, then ask for the final confirmation (`start_index == 0`);
declining returns with the just-persisted checkpoint left on disk.
`fileAtCreate` is the checkpoint-file state at that moment (`none` when a
restart or an invalid checkpoint already cleared it, the untouched
original when no checkpoint loaded). -/
def runFresh (files : String → Option FileData) (H resolve : String → String)
    (fileAtCreate : Option CkptFile) (confirmYes : Bool)
    (transport : Int → Nat → SendOutcome) (targetId : Int) (targetTitle : String)
    (now : String) (elapsedAt : Int → Rat) (backup_files : List String) (merge : Bool)
    (msgs : List Message) : RunResult :=
  match create_checkpoint files H resolve now backup_files targetId targetTitle merge
      (msgs.length : Int) with
  | none => mkNoEffect fileAtCreate .aborted
  | some c =>
    let c1 := stampUpdated c now
    if confirmYes then runSendLoop transport msgs now elapsedAt c1 0 0 0 []
    else ⟨some (.record c1), .declined, [], [], [], 0, 0, []⟩

/-- The resume path (lines 428–434): restart the loop at
`last_successful_index + 1` with the persisted counters; a resume landing
back at index 0 still passes through the confirmation prompt. -/
def runResume (transport : Int → Nat → SendOutcome) (msgs : List Message) (now : String)
    (elapsedAt : Int → Rat) (ckptFile : Option CkptFile) (confirmYes : Bool)
    (cp : Checkpoint) : RunResult :=
  let start := cp.last_successful_index + 1
  if start = 0 then
    if confirmYes then
      runSendLoop transport msgs now elapsedAt cp start cp.success_count cp.failed_count
        cp.failed_message_ids
    else mkNoEffect ckptFile .declined
  else
    runSendLoop transport msgs now elapsedAt cp start cp.success_count cp.failed_count
      cp.failed_message_ids

/-- `restore_messages` (source lines 345–548): config check, message
loading and ordering, checkpoint load/validate/decide, then the fresh or
resume path. -/
def restore_messages (cfgOk : Bool) (files : String → Option FileData)
    (ckptFile : Option CkptFile) (H resolve : String → String)
    (mode : Mode) (promptChoice : Choice) (confirmYes : Bool)
    (transport : Int → Nat → SendOutcome) (targetId : Int) (targetTitle : String)
    (now : String) (elapsedAt : Int → Rat)
    (backup_files : List String) (merge : Bool) : RunResult :=
  if cfgOk = false then mkNoEffect ckptFile .configError
  else
    let msgs := orderedMessages files backup_files merge
    if msgs = [] then mkNoEffect ckptFile .noMessages
    else
      match load_checkpoint_s ckptFile with
      | some cp =>
        if (validate_checkpoint files H resolve cp backup_files targetId merge).1 then
          match chosenAction mode promptChoice with
          | .cancel => mkNoEffect ckptFile .cancelled
          | .resume => runResume transport msgs now elapsedAt ckptFile confirmYes cp
          | .restart =>
            runFresh files H resolve none confirmYes transport targetId targetTitle now
              elapsedAt backup_files merge msgs
        else
          runFresh files H resolve none confirmYes transport targetId targetTitle now
            elapsedAt backup_files merge msgs
      | none =>
        runFresh files H resolve ckptFile confirmYes transport targetId targetTitle now
          elapsedAt backup_files merge msgs

/-! ## Concrete fixtures used by witnesses and counterexamples -/

/-- A small file system: two backup files, three messages with
out-of-order dates across the files. -/
def wfiles : String → Option FileData := fun p =>
  if p = "/a.json" then
    some ⟨[⟨some 10, some "2024-01-02"⟩, ⟨some 11, some "2024-01-01"⟩], "sha256:aa"⟩
  else if p = "/b.json" then
    some ⟨[⟨some 20, some "2024-01-03"⟩], "sha256:bb"⟩
  else none

def wbf : List String := ["/a.json", "/b.json"]

/-- A checkpoint as this program would have written it after delivering
item 0 of the `wbf`/target-7/merge operation. -/
def wcp : Checkpoint :=
  { version := 1
    created_at := "t0"
    updated_at := "t0"
    operation_hash := compute_operation_hash id id wbf 7 true
    target_group_id := 7
    target_group_title := "G"
    source_files := wbf
    source_files_hashes := [("/a.json", "sha256:aa"), ("/b.json", "sha256:bb")]
    merge_enabled := true
    total_messages := 3
    last_successful_index := 0
    last_message_id := some 11
    success_count := 1
    failed_count := 0
    failed_message_ids := []
    elapsed_seconds := 0 }

/-- A well-formed checkpoint record with `updated_at = "A"`. -/
def tcp : Checkpoint :=
  ⟨1, "A", "A", "sha256:h", 42, "G", ["/a.json"], [("/a.json", "sha256:aa")],
   true, 1, -1, none, 0, 0, [], 0⟩

/-- A transport whose every call answers with a hard quota wait. -/
def ftrace : Nat → SendOutcome := fun _ => .floodWait 7

/-- A transport that permanently fails on message index 1 and delivers
everything else first try. -/
def wtransport : Int → Nat → SendOutcome := fun i _ => if i = 1 then .error else .ok

/-- The record `create_checkpoint` builds for a fresh `wbf`/target-7/merge
run over `wfiles` at time `"t1"`. -/
def wfresh : Checkpoint :=
  { version := 1
    created_at := "t1"
    updated_at := "t1"
    operation_hash := compute_operation_hash id id wbf 7 true
    target_group_id := 7
    target_group_title := "G"
    source_files := ["/a.json", "/b.json"]
    source_files_hashes := [("/a.json", "sha256:aa"), ("/b.json", "sha256:bb")]
    merge_enabled := true
    total_messages := 3
    last_successful_index := -1
    last_message_id := none
    success_count := 0
    failed_count := 0
    failed_message_ids := []
    elapsed_seconds := 0 }

/-! ## Helper lemmas -/

theorem intRangeAux_mem {k : Nat} : ∀ {s i : Int},
    i ∈ intRangeAux s k ↔ s ≤ i ∧ i < s + k := by
  induction k with
  | zero =>
    intro s i
    simp only [intRangeAux, List.not_mem_nil, false_iff]
    omega
  | succ k ih =>
    intro s i
    simp only [intRangeAux, List.mem_cons, ih]
    omega

theorem intRange_mem {s : Int} {n : Nat} {i : Int} :
    i ∈ intRange s n ↔ s ≤ i ∧ i < (n : Int) := by
  unfold intRange
  rw [intRangeAux_mem]
  omega

theorem sendGo_calls_le (trace : Nat → SendOutcome) (maxRetries : Nat) :
    ∀ l : List Nat, (sendGo trace maxRetries l).calls ≤ l.length := by
  intro l
  induction l with
  | nil => simp [sendGo]
  | cons a rest ih =>
    simp only [sendGo, List.length_cons]
    cases trace a <;> simp only []
    · omega
    · omega
    · omega
    · split
      · simpa using Nat.succ_le_succ ih
      · simp

theorem send_calls_le (trace : Nat → SendOutcome) (maxRetries : Nat) :
    (send_message_with_retry trace maxRetries).calls ≤ maxRetries := by
  simpa using sendGo_calls_le trace maxRetries (List.range maxRetries)

theorem loop_attempted (transport : Int → Nat → SendOutcome) (msgs : List Message)
    (now : String) (elapsedAt : Int → Rat) :
    ∀ (idxs : List Int) (st0 : LoopState),
      (idxs.foldl (processItem transport msgs now elapsedAt) st0).attempted
        = st0.attempted ++ idxs := by
  intro idxs
  induction idxs with
  | nil => intro st0; simp
  | cons a rest ih =>
    intro st0
    rw [List.foldl_cons, ih]
    simp [processItem]

theorem loop_saved_map (transport : Int → Nat → SendOutcome) (msgs : List Message)
    (now : String) (elapsedAt : Int → Rat) :
    ∀ (idxs : List Int) (st0 : LoopState),
      (idxs.foldl (processItem transport msgs now elapsedAt) st0).saved.map
          (fun c => c.last_successful_index)
        = st0.saved.map (fun c => c.last_successful_index) ++ idxs := by
  intro idxs
  induction idxs with
  | nil => intro st0; simp
  | cons a rest ih =>
    intro st0
    rw [List.foldl_cons, ih]
    simp [processItem]

theorem loop_failed_ids (transport : Int → Nat → SendOutcome) (msgs : List Message)
    (now : String) (elapsedAt : Int → Rat) :
    ∀ (idxs : List Int) (st0 : LoopState),
      (idxs.foldl (processItem transport msgs now elapsedAt) st0).failed_ids
        = st0.failed_ids ++
            (idxs.filter (fun i => !(send_message_with_retry (transport i)).success)).map
              (fun i => (pyIndex msgs i).message_id) := by
  intro idxs
  induction idxs with
  | nil => intro st0; simp
  | cons a rest ih =>
    intro st0
    rw [List.foldl_cons, ih]
    by_cases hok : (send_message_with_retry (transport a)).success = true
    · simp [processItem, List.filter_cons, hok]
    · simp only [Bool.not_eq_true] at hok
      simp [processItem, List.filter_cons, hok]

theorem loop_results (transport : Int → Nat → SendOutcome) (msgs : List Message)
    (now : String) (elapsedAt : Int → Rat) :
    ∀ (idxs : List Int) (st0 : LoopState),
      (idxs.foldl (processItem transport msgs now elapsedAt) st0).results
        = st0.results ++
            idxs.map (fun i => (i, (send_message_with_retry (transport i)).success)) := by
  intro idxs
  induction idxs with
  | nil => intro st0; simp
  | cons a rest ih =>
    intro st0
    rw [List.foldl_cons, ih]
    simp [processItem]

theorem runSendLoop_spec (transport : Int → Nat → SendOutcome) (msgs : List Message)
    (now : String) (elapsedAt : Int → Rat) (cp : Checkpoint) (start : Int)
    (success0 failed0 : Int) (fids0 : List (Option Int)) :
    (runSendLoop transport msgs now elapsedAt cp start success0 failed0 fids0).outcome
        = .completed
    ∧ (runSendLoop transport msgs now elapsedAt cp start success0 failed0 fids0).checkpointFile
        = none
    ∧ (runSendLoop transport msgs now elapsedAt cp start success0 failed0 fids0).attempted
        = intRange start msgs.length
    ∧ (runSendLoop transport msgs now elapsedAt cp start success0 failed0 fids0).saved.map
          (fun c => c.last_successful_index)
        = intRange start msgs.length
    ∧ (runSendLoop transport msgs now elapsedAt cp start success0 failed0 fids0).failed_ids
        = fids0 ++
            ((intRange start msgs.length).filter
                (fun i => !(send_message_with_retry (transport i)).success)).map
              (fun i => (pyIndex msgs i).message_id)
    ∧ (runSendLoop transport msgs now elapsedAt cp start success0 failed0 fids0).results
        = (intRange start msgs.length).map
            (fun i => (i, (send_message_with_retry (transport i)).success)) := by
  refine ⟨rfl, rfl, ?_, ?_, ?_, ?_⟩
  · simpa using loop_attempted transport msgs now elapsedAt (intRange start msgs.length) _
  · simpa using loop_saved_map transport msgs now elapsedAt (intRange start msgs.length) _
  · simpa using loop_failed_ids transport msgs now elapsedAt (intRange start msgs.length) _
  · simpa using loop_results transport msgs now elapsedAt (intRange start msgs.length) _

theorem str_append_ne_empty (a b : String) (h : a.data ≠ []) : a ++ b ≠ "" := by
  intro he
  apply h
  have hd := congrArg String.data he
  rw [String.data_append] at hd
  exact (List.append_eq_nil.mp hd).1

theorem checkSourceFiles_true_iff (files : String → Option FileData) :
    ∀ l : List (String × String),
      (checkSourceFiles files l).1 = true ↔
        ∀ ph ∈ l, ∃ fd, files ph.1 = some fd ∧ fd.hash = ph.2 := by
  intro l
  induction l with
  | nil => simp [checkSourceFiles]
  | cons ph rest ih =>
    obtain ⟨p, h⟩ := ph
    rw [List.forall_mem_cons]
    simp only [checkSourceFiles]
    cases hf : files p with
    | none => simp [hf]
    | some fd =>
      by_cases hh : fd.hash = h
      · simp [hf, hh, ih]
      · simp [hf, hh]

theorem checkSourceFiles_reason (files : String → Option FileData) :
    ∀ l : List (String × String),
      (checkSourceFiles files l).1 = false → (checkSourceFiles files l).2 ≠ "" := by
  intro l
  induction l with
  | nil => simp [checkSourceFiles]
  | cons ph rest ih =>
    obtain ⟨p, h⟩ := ph
    simp only [checkSourceFiles]
    cases hf : files p with
    | none =>
      intro _
      refine str_append_ne_empty _ _ ?_
      decide
    | some fd =>
      by_cases hh : fd.hash = h
      · simpa [hf, hh] using ih
      · simp only [if_neg hh]
        intro _
        refine str_append_ne_empty _ _ ?_
        decide

theorem hashAll_eq_none (files : String → Option FileData) :
    ∀ (l : List String) (p : String), p ∈ l → files p = none → hashAll files l = none := by
  intro l
  induction l with
  | nil => intro p hp; exact absurd hp (List.not_mem_nil p)
  | cons q rest ih =>
    intro p hp hmiss
    rcases List.mem_cons.mp hp with rfl | hp'
    · simp [hashAll, hmiss]
    · simp only [hashAll]
      cases hf : files q with
      | none => rfl
      | some fd => rw [ih p hp' hmiss]; rfl

theorem flatten_skip_missing (files : String → Option FileData) :
    ∀ bf : List String,
      (bf.map (fun f => match files f with
        | none => ([] : List Message)
        | some fd => fd.messages)).flatten
        = ((bf.filter (fun p => (files p).isSome)).map (fun f => match files f with
            | none => ([] : List Message)
            | some fd => fd.messages)).flatten := by
  intro bf
  induction bf with
  | nil => rfl
  | cons p rest ih =>
    simp only [List.map_cons, List.flatten_cons, List.filter_cons]
    cases hf : files p with
    | none => simpa [hf] using ih
    | some fd => simp [hf, ih]

theorem orderedMessages_skip_missing (files : String → Option FileData)
    (bf : List String) (merge : Bool) :
    orderedMessages files bf merge
      = orderedMessages files (bf.filter (fun p => (files p).isSome)) merge := by
  simp only [orderedMessages]
  rw [flatten_skip_missing]

theorem sendGo_success_iff (trace : Nat → SendOutcome) (mr : Nat) :
    ∀ (k a : Nat), a + k = mr →
      ((sendGo trace mr (List.range' a k)).success = true ↔
        ∃ j, a ≤ j ∧ j < mr ∧ trace j = .ok ∧ ∀ i, a ≤ i → i < j → trace i ≠ .ok) := by
  intro k
  induction k with
  | zero =>
    intro a ha
    simp only [List.range', sendGo]
    constructor
    · intro h
      exact absurd h (by simp)
    · rintro ⟨j, hj1, hj2, _, _⟩
      omega
  | succ k ih =>
    intro a ha
    rw [List.range'_succ]
    have hbridge : ∀ s : SendOutcome, trace a = s → s ≠ .ok →
        ((∃ j, a + 1 ≤ j ∧ j < mr ∧ trace j = .ok ∧ ∀ i, a + 1 ≤ i → i < j → trace i ≠ .ok) ↔
          (∃ j, a ≤ j ∧ j < mr ∧ trace j = .ok ∧ ∀ i, a ≤ i → i < j → trace i ≠ .ok)) := by
      intro s hs hne
      constructor
      · rintro ⟨j, hj1, hj2, hj3, hj4⟩
        refine ⟨j, by omega, hj2, hj3, fun i hi1 hi2 => ?_⟩
        by_cases hia : i = a
        · rw [hia, hs]; exact hne
        · exact hj4 i (by omega) hi2
      · rintro ⟨j, hj1, hj2, hj3, hj4⟩
        have hja : j ≠ a := by
          intro hja
          rw [hja, hs] at hj3
          exact hne hj3
        exact ⟨j, by omega, hj2, hj3, fun i hi1 hi2 => hj4 i (by omega) hi2⟩
    cases htr : trace a with
    | ok =>
      simp only [sendGo, htr]
      constructor
      · intro _
        exact ⟨a, le_refl a, by omega, htr, fun i hi1 hi2 => absurd hi2 (by omega)⟩
      · intro _
        trivial
    | floodWait s =>
      simp only [sendGo, htr]
      rw [ih (a + 1) (by omega)]
      exact hbridge _ htr (by simp)
    | slowModeWait s =>
      simp only [sendGo, htr]
      rw [ih (a + 1) (by omega)]
      exact hbridge _ htr (by simp)
    | error =>
      simp only [sendGo, htr]
      by_cases hlast : a < mr - 1
      · rw [if_pos hlast]
        rw [ih (a + 1) (by omega)]
        exact hbridge _ htr (by simp)
      · rw [if_neg hlast]
        simp only []
        constructor
        · intro h
          exact absurd h (by simp)
        · rintro ⟨j, hj1, hj2, hj3, _⟩
          have : j = a := by omega
          rw [this, htr] at hj3
          exact absurd hj3 (by simp)

theorem send_success_iff (trace : Nat → SendOutcome) (mr : Nat) :
    (send_message_with_retry trace mr).success = true ↔
      ∃ j, j < mr ∧ trace j = .ok ∧ ∀ i, i < j → trace i ≠ .ok := by
  have h := sendGo_success_iff trace mr mr 0 (by omega)
  rw [← List.range_eq_range'] at h
  unfold send_message_with_retry
  rw [h]
  constructor
  · rintro ⟨j, _, hj2, hj3, hj4⟩
    exact ⟨j, hj2, hj3, fun i hi => hj4 i (by omega) hi⟩
  · rintro ⟨j, hj2, hj3, hj4⟩
    exact ⟨j, by omega, hj2, hj3, fun i _ hi => hj4 i hi⟩

theorem send_flood_consumes (trace : Nat → SendOutcome) (mr : Nat) (s : Nat)
    (h : trace 0 = .floodWait s) (hmr : 1 ≤ mr) :
    send_message_with_retry trace mr =
      ⟨(sendGo trace mr (List.range' 1 (mr - 1))).success,
       s :: (sendGo trace mr (List.range' 1 (mr - 1))).sleeps,
       (sendGo trace mr (List.range' 1 (mr - 1))).calls + 1⟩ := by
  unfold send_message_with_retry
  rw [List.range_eq_range']
  have hmr' : mr = (mr - 1) + 1 := by omega
  rw [hmr', List.range'_succ]
  simp only [sendGo, h]
  rw [← hmr']

theorem send_error_consumes (trace : Nat → SendOutcome) (mr : Nat)
    (h : trace 0 = .error) (hmr : 2 ≤ mr) :
    send_message_with_retry trace mr =
      ⟨(sendGo trace mr (List.range' 1 (mr - 1))).success,
       5 :: (sendGo trace mr (List.range' 1 (mr - 1))).sleeps,
       (sendGo trace mr (List.range' 1 (mr - 1))).calls + 1⟩ := by
  unfold send_message_with_retry
  rw [List.range_eq_range']
  have hmr' : mr = (mr - 1) + 1 := by omega
  rw [hmr', List.range'_succ]
  simp only [sendGo, h]
  rw [if_pos (by omega : 0 < (mr - 1) + 1 - 1)]
  rw [← hmr']

theorem char_toNat_inj {a b : Char} (h : a.toNat = b.toNat) : a = b := by
  apply Char.ext
  apply UInt32.toNat.inj h

theorem charsLe_total : ∀ as bs : List Char, charsLe as bs = true ∨ charsLe bs as = true := by
  intro as
  induction as with
  | nil => intro bs; left; rfl
  | cons a as ih =>
    intro bs
    cases bs with
    | nil => right; rfl
    | cons b bs =>
      simp only [charsLe]
      by_cases hab : a.toNat < b.toNat
      · left; rw [if_pos hab]
      · by_cases hba : b.toNat < a.toNat
        · right; rw [if_pos hba]
        · rw [if_neg hab, if_neg hba, if_neg hba, if_neg hab]
          exact ih bs

theorem charsLe_trans : ∀ as bs cs : List Char,
    charsLe as bs = true → charsLe bs cs = true → charsLe as cs = true := by
  intro as
  induction as with
  | nil => intro bs cs _ _; rfl
  | cons a as ih =>
    intro bs cs h1 h2
    cases bs with
    | nil => simp [charsLe] at h1
    | cons b bs =>
      cases cs with
      | nil => simp [charsLe] at h2
      | cons c cs =>
        simp only [charsLe] at h1 h2 ⊢
        by_cases hab : a.toNat < b.toNat
        · by_cases hbc : b.toNat < c.toNat
          · rw [if_pos (by omega : a.toNat < c.toNat)]
          · by_cases hcb : c.toNat < b.toNat
            · rw [if_neg hbc, if_pos hcb] at h2
              exact absurd h2 (by simp)
            · rw [if_pos (by omega : a.toNat < c.toNat)]
        · by_cases hba : b.toNat < a.toNat
          · rw [if_neg hab, if_pos hba] at h1
            exact absurd h1 (by simp)
          · by_cases hbc : b.toNat < c.toNat
            · rw [if_pos (by omega : a.toNat < c.toNat)]
            · by_cases hcb : c.toNat < b.toNat
              · rw [if_neg hbc, if_pos hcb] at h2
                exact absurd h2 (by simp)
              · rw [if_neg hab, if_neg hba] at h1
                rw [if_neg hbc, if_neg hcb] at h2
                rw [if_neg (by omega : ¬a.toNat < c.toNat),
                  if_neg (by omega : ¬c.toNat < a.toNat)]
                exact ih bs cs h1 h2

theorem charsLe_antisymm : ∀ as bs : List Char,
    charsLe as bs = true → charsLe bs as = true → as = bs := by
  intro as
  induction as with
  | nil =>
    intro bs h1 h2
    cases bs with
    | nil => rfl
    | cons b bs => simp [charsLe] at h2
  | cons a as ih =>
    intro bs h1 h2
    cases bs with
    | nil => simp [charsLe] at h1
    | cons b bs =>
      simp only [charsLe] at h1 h2
      by_cases hab : a.toNat < b.toNat
      · rw [if_neg (by omega : ¬b.toNat < a.toNat), if_pos hab] at h2
        exact absurd h2 (by simp)
      · by_cases hba : b.toNat < a.toNat
        · rw [if_neg hab, if_pos hba] at h1
          exact absurd h1 (by simp)
        · rw [if_neg hab, if_neg hba] at h1
          rw [if_neg hba, if_neg hab] at h2
          rw [char_toNat_inj (by omega : a.toNat = b.toNat), ih bs h1 h2]

theorem pyStrLe_total (a b : String) : pyStrLe a b = true ∨ pyStrLe b a = true :=
  charsLe_total a.data b.data

theorem pyStrLe_trans (a b c : String) (h1 : pyStrLe a b = true) (h2 : pyStrLe b c = true) :
    pyStrLe a c = true :=
  charsLe_trans a.data b.data c.data h1 h2

theorem pyStrLe_antisymm (a b : String) (h1 : pyStrLe a b = true) (h2 : pyStrLe b a = true) :
    a = b :=
  String.ext (charsLe_antisymm a.data b.data h1 h2)

theorem sortStrings_perm_eq {l1 l2 : List String} (h : l1.Perm l2) :
    sortStrings l1 = sortStrings l2 := by
  haveI : IsTotal String (fun a b => pyStrLe a b = true) := ⟨pyStrLe_total⟩
  haveI : IsTrans String (fun a b => pyStrLe a b = true) :=
    ⟨fun a b c => pyStrLe_trans a b c⟩
  haveI : IsAntisymm String (fun a b => pyStrLe a b = true) :=
    ⟨fun a b => pyStrLe_antisymm a b⟩
  have hp : (sortStrings l1).Perm (sortStrings l2) :=
    ((List.perm_insertionSort _ l1).trans h).trans (List.perm_insertionSort _ l2).symm
  exact List.eq_of_perm_of_sorted hp
    (List.sorted_insertionSort (fun a b => pyStrLe a b = true) l1)
    (List.sorted_insertionSort (fun a b => pyStrLe a b = true) l2)

theorem natDigitsAux_eq_digits : ∀ (fuel n : Nat), n ≤ fuel → natDigitsAux fuel n = Nat.digits 10 n := by
  intro fuel
  induction fuel with
  | zero =>
    intro n hn
    have : n = 0 := by omega
    subst this
    simp [natDigitsAux]
  | succ fuel ih =>
    intro n hn
    cases n with
    | zero => simp [natDigitsAux]
    | succ m =>
      rw [Nat.digits_def' (by norm_num : 1 < 10) (Nat.succ_pos m)]
      simp only [natDigitsAux]
      rw [ih ((m + 1) / 10) (by
        have := Nat.div_lt_self (Nat.succ_pos m) (by norm_num : 1 < 10)
        omega)]

theorem natDigits_eq_digits (n : Nat) : natDigits n = Nat.digits 10 n :=
  natDigitsAux_eq_digits n n (le_refl n)

theorem digitChar_inj_lt : ∀ d, d < 10 → ∀ e, e < 10 → digitChar d = digitChar e → d = e := by
  decide

theorem digitChar_ne_dash : ∀ d, d < 10 → digitChar d ≠ '-' := by
  decide

theorem map_digitChar_inj : ∀ (l1 l2 : List Nat),
    (∀ d ∈ l1, d < 10) → (∀ d ∈ l2, d < 10) →
    l1.map digitChar = l2.map digitChar → l1 = l2 := by
  intro l1
  induction l1 with
  | nil =>
    intro l2 _ _ h
    cases l2 with
    | nil => rfl
    | cons e l2 => simp at h
  | cons d l1 ih =>
    intro l2 h1 h2 h
    cases l2 with
    | nil => simp at h
    | cons e l2 =>
      simp only [List.map_cons, List.cons.injEq] at h
      have hd := digitChar_inj_lt d (h1 d (by simp)) e (h2 e (by simp)) h.1
      rw [hd, ih l2 (fun x hx => h1 x (by simp [hx])) (fun x hx => h2 x (by simp [hx])) h.2]

theorem natDecChars_mem (n : Nat) (c : Char) (hc : c ∈ natDecChars n) :
    ∃ d, d < 10 ∧ c = digitChar d := by
  unfold natDecChars at hc
  by_cases hn : n = 0
  · rw [if_pos hn] at hc
    simp only [List.mem_singleton] at hc
    exact ⟨0, by norm_num, hc⟩
  · rw [if_neg hn] at hc
    rw [List.mem_reverse, List.mem_map] at hc
    obtain ⟨d, hd, rfl⟩ := hc
    rw [natDigits_eq_digits] at hd
    exact ⟨d, Nat.digits_lt_base (by norm_num) hd, rfl⟩

theorem natDecChars_inj : ∀ a b : Nat, natDecChars a = natDecChars b → a = b := by
  have key : ∀ b : Nat, b ≠ 0 → natDecChars b = ['0'] → False := by
    intro b hb h
    unfold natDecChars at h
    rw [if_neg hb] at h
    have h' : (natDigits b).map digitChar = ['0'] := by
      have := List.reverse_inj.mpr h
      simpa using h
    rw [natDigits_eq_digits] at h'
    cases hd : Nat.digits 10 b with
    | nil =>
      rw [hd] at h'
      simp at h'
    | cons d rest =>
      rw [hd] at h'
      simp only [List.map_cons, List.cons.injEq] at h'
      obtain ⟨hchar, hrest⟩ := h'
      have hrest' : rest = [] := by
        cases rest with
        | nil => rfl
        | cons x xs => simp at hrest
      have hd0 : d = 0 := by
        have hdlt : d < 10 := Nat.digits_lt_base (by norm_num) (by rw [hd]; simp)
        exact digitChar_inj_lt d hdlt 0 (by norm_num) (by rw [hchar]; rfl)
      have hlast := Nat.getLast_digit_ne_zero 10 hb
      subst hrest'
      have hne2 : Nat.digits 10 b ≠ [] := Nat.digits_ne_nil_iff_ne_zero.mpr hb
      have h1 : (Nat.digits 10 b).getLast? = some ((Nat.digits 10 b).getLast hne2) :=
        List.getLast?_eq_getLast _ hne2
      have h4 : (Nat.digits 10 b).getLast? = some d := by rw [hd]; rfl
      have h3 : d = (Nat.digits 10 b).getLast hne2 := Option.some.inj (h4.symm.trans h1)
      exact hlast (h3.symm.trans hd0)
  intro a b h
  by_cases ha : a = 0
  · by_cases hb : b = 0
    · rw [ha, hb]
    · subst ha
      exact absurd (h.symm.trans (by unfold natDecChars; rw [if_pos rfl])) (fun hh => key b hb hh)
  · by_cases hb : b = 0
    · subst hb
      exact absurd (h.trans (by unfold natDecChars; rw [if_pos rfl])) (fun hh => key a ha hh)
    · unfold natDecChars at h
      rw [if_neg ha, if_neg hb] at h
      have h' := List.reverse_inj.mp (by simpa using h)
      have hmap : (natDigits a).map digitChar = (natDigits b).map digitChar := h'
      rw [natDigits_eq_digits, natDigits_eq_digits] at hmap
      have hdig := map_digitChar_inj _ _
        (fun d hd => Nat.digits_lt_base (by norm_num) hd)
        (fun d hd => Nat.digits_lt_base (by norm_num) hd) hmap
      have := congrArg (Nat.ofDigits 10) hdig
      rwa [Nat.ofDigits_digits, Nat.ofDigits_digits] at this

theorem intDecChars_inj : ∀ i j : Int, intDecChars i = intDecChars j → i = j := by
  have dash_not_mem : ∀ n : Nat, '-' ∈ natDecChars n → False := by
    intro n hmem
    obtain ⟨d, hd, hc⟩ := natDecChars_mem n '-' hmem
    exact digitChar_ne_dash d hd hc.symm
  intro i j h
  cases i with
  | ofNat n =>
    cases j with
    | ofNat m =>
      simp only [intDecChars] at h
      rw [natDecChars_inj n m h]
    | negSucc m =>
      exfalso
      simp only [intDecChars] at h
      exact dash_not_mem n (h ▸ List.mem_cons_self '-' (natDecChars (m + 1)))
  | negSucc n =>
    cases j with
    | ofNat m =>
      exfalso
      simp only [intDecChars] at h
      exact dash_not_mem m (h ▸ List.mem_cons_self '-' (natDecChars (n + 1)))
    | negSucc m =>
      simp only [intDecChars, List.cons.injEq, true_and] at h
      have hsucc := natDecChars_inj (n + 1) (m + 1) h
      have hnm : n = m := by omega
      rw [hnm]

theorem intDecStr_inj : ∀ i j : Int, intDecStr i = intDecStr j → i = j := by
  intro i j h
  exact intDecChars_inj i j (congrArg String.data h)

theorem str_append_left_cancel {a b c : String} (h : a ++ b = a ++ c) : b = c := by
  apply String.ext
  have hd := congrArg String.data h
  rw [String.data_append, String.data_append] at hd
  exact List.append_cancel_left hd

theorem str_append_right_cancel {a b c : String} (h : a ++ c = b ++ c) : a = b := by
  apply String.ext
  have hd := congrArg String.data h
  rw [String.data_append, String.data_append] at hd
  exact List.append_cancel_right hd

theorem opContent_target_inj (S : List String) (m : Bool) {t t' : Int}
    (h : opContent S t m = opContent S t' m) : t = t' := by
  unfold opContent at h
  exact intDecStr_inj _ _ (str_append_left_cancel (str_append_right_cancel h))

theorem opContent_merge_ne (S : List String) (t : Int) :
    opContent S t true ≠ opContent S t false := by
  intro h
  unfold opContent at h
  have h1 := str_append_right_cancel h
  have h2 := str_append_right_cancel h1
  have h3 := str_append_right_cancel h2
  have h4 := str_append_left_cancel h3
  simp at h4

/-! ## Claim theorems -/

/-- C1, counterexample.  The claim says a hard quota wait
(`FloodWaitError`/`SlowModeWaitError`) retries the same attempt without
consuming a retry count, so quota waits alone can never exhaust the retry
budget.  In the code the `for attempt in range(max_retries)` loop variable
advances after a quota wait exactly as after any other failure: with
`max_retries = 3` and a transport that answers every call with
`FloodWaitError(5)`, the function sleeps 5 s three times, makes exactly 3
calls, and returns `False` — the quota waits alone exhausted the budget. -/
theorem c1_counterexample :
    send_message_with_retry (fun _ => .floodWait 5) 3 = ⟨false, [5, 5, 5], 3⟩ := by
  decide

/-- C1 (amended): a hard quota wait sleeps exactly the server-supplied
duration and then proceeds to the *next* loop attempt, consuming one
attempt slot (without the fixed 5-second backoff); a generic failure
consumes one slot and sleeps a fixed 5 seconds unless it was the final
attempt; at most `max_retries` transport calls are made; and the item
succeeds exactly when one of the first `max_retries` calls returns `Ok`. -/
theorem c1_retry_semantics (trace : Nat → SendOutcome) (mr : Nat) :
    ((send_message_with_retry trace mr).success = true ↔
      ∃ j, j < mr ∧ trace j = .ok ∧ ∀ i, i < j → trace i ≠ .ok)
    ∧ (send_message_with_retry trace mr).calls ≤ mr
    ∧ (∀ s, trace 0 = .floodWait s → 1 ≤ mr →
        send_message_with_retry trace mr =
          ⟨(sendGo trace mr (List.range' 1 (mr - 1))).success,
           s :: (sendGo trace mr (List.range' 1 (mr - 1))).sleeps,
           (sendGo trace mr (List.range' 1 (mr - 1))).calls + 1⟩)
    ∧ (trace 0 = .error → 2 ≤ mr →
        send_message_with_retry trace mr =
          ⟨(sendGo trace mr (List.range' 1 (mr - 1))).success,
           5 :: (sendGo trace mr (List.range' 1 (mr - 1))).sleeps,
           (sendGo trace mr (List.range' 1 (mr - 1))).calls + 1⟩) :=
  ⟨send_success_iff trace mr, send_calls_le trace mr,
   fun s hs hmr => send_flood_consumes trace mr s hs hmr,
   fun he hmr => send_error_consumes trace mr he hmr⟩

/-- C1, witness: with a budget of 2 and every call a `FloodWaitError(7)`,
the call count stays within budget, the first quota wait sleeps exactly
7 s and hands the remaining single attempt on, and the send fails. -/
theorem c1_witness :
    (send_message_with_retry ftrace 2).calls ≤ 2
    ∧ send_message_with_retry ftrace 2 =
        ⟨(sendGo ftrace 2 (List.range' 1 1)).success,
         7 :: (sendGo ftrace 2 (List.range' 1 1)).sleeps,
         (sendGo ftrace 2 (List.range' 1 1)).calls + 1⟩
    ∧ (send_message_with_retry ftrace 2).success = false := by
  obtain ⟨h1, h2, h3, _⟩ := c1_retry_semantics ftrace 2
  refine ⟨h2, h3 7 rfl (by norm_num), ?_⟩
  cases hsucc : (send_message_with_retry ftrace 2).success
  · rfl
  · exfalso
    obtain ⟨j, _, hj, _⟩ := h1.mp hsucc
    exact absurd hj (by simp [ftrace])

/-- C3: `save_checkpoint` writes the full serialized record to a temporary
file in the checkpoint's directory and then renames it over the canonical
path (same-directory `shutil.move` = atomic `os.rename`): at every
intermediate state the canonical path holds either the complete old
content or the complete new record, never the partially written temp; on
success the final state has the new record and no temp; on a write error
the temp file is removed, the canonical path still holds the old content,
and the error is propagated. -/
theorem c3_save_atomic (c : Checkpoint) (now : String) (old : Option FileContent)
    (writeOk : Bool) :
    (∀ s ∈ (save_checkpoint_states c now old writeOk).1,
        s.canonical = old
        ∨ s.canonical = some (.json (checkpointToJson (stampUpdated c now))))
    ∧ (writeOk = true →
        (save_checkpoint_states c now old writeOk).1.getLast? =
          some ⟨some (.json (checkpointToJson (stampUpdated c now))), none⟩
        ∧ (save_checkpoint_states c now old writeOk).2 = .ok (stampUpdated c now))
    ∧ (writeOk = false →
        (save_checkpoint_states c now old writeOk).1.getLast? = some ⟨old, none⟩
        ∧ (save_checkpoint_states c now old writeOk).2 = .error ()) := by
  cases writeOk with
  | false =>
    refine ⟨?_, fun h => absurd h (by simp), fun _ => ⟨rfl, rfl⟩⟩
    intro s hs
    simp only [save_checkpoint_states, Bool.false_eq_true, if_false, List.mem_cons,
      List.not_mem_nil, or_false] at hs
    rcases hs with rfl | rfl | rfl | rfl <;> exact Or.inl rfl
  | true =>
    refine ⟨?_, fun _ => ⟨rfl, rfl⟩, fun h => absurd h (by simp)⟩
    intro s hs
    simp only [save_checkpoint_states, if_true, List.mem_cons,
      List.not_mem_nil, or_false] at hs
    rcases hs with rfl | rfl | rfl | rfl | rfl
    · exact Or.inl rfl
    · exact Or.inl rfl
    · exact Or.inl rfl
    · exact Or.inl rfl
    · exact Or.inr rfl

/-- C3, witness: a failing save over an absent checkpoint file: the
mid-write state still shows the old canonical content, the final state has
the temp removed and the old content intact, and the error propagates. -/
theorem c3_witness :
    ((⟨none, some .halfWritten⟩ : SaveFS).canonical = none
      ∨ (⟨none, some .halfWritten⟩ : SaveFS).canonical
          = some (.json (checkpointToJson (stampUpdated tcp "B"))))
    ∧ (save_checkpoint_states tcp "B" none false).1.getLast? = some ⟨none, none⟩
    ∧ (save_checkpoint_states tcp "B" none false).2 = .error () := by
  obtain ⟨h1, _, h3⟩ := c3_save_atomic tcp "B" none false
  have hmem : (⟨none, some .halfWritten⟩ : SaveFS)
      ∈ (save_checkpoint_states tcp "B" none false).1 :=
    List.Mem.tail _ (List.Mem.tail _ (List.Mem.head _))
  obtain ⟨h4, h5⟩ := h3 rfl
  exact ⟨h1 _ hmem, h4, h5⟩

/-- C4: the checkpoint-acceptance pipeline.  `validate_checkpoint` answers
`Valid` exactly when the recomputed operation fingerprint equals the
recorded one and every recorded source file still exists with its current
content hash equal to the recorded hash; whenever it answers `Invalid` the
reason string is nonempty.  The schema-version condition is enforced one
step earlier, by `load_checkpoint`: a record reaches `validate_checkpoint`
(as `some cp`) exactly when its version matches `CHECKPOINT_VERSION`, and
a version mismatch is surfaced (with its own warning) as an absent
checkpoint, which the driver likewise refuses to resume. -/
theorem c4_validation_spec (files : String → Option FileData) (H resolve : String → String)
    (cp : Checkpoint) (backup_files : List String) (target_group_id : Int) (merge : Bool) :
    ((validate_checkpoint files H resolve cp backup_files target_group_id merge).1 = true ↔
      (cp.operation_hash = compute_operation_hash H resolve backup_files target_group_id merge
        ∧ ∀ ph ∈ cp.source_files_hashes, ∃ fd, files ph.1 = some fd ∧ fd.hash = ph.2))
    ∧ ((validate_checkpoint files H resolve cp backup_files target_group_id merge).1 = false →
        (validate_checkpoint files H resolve cp backup_files target_group_id merge).2 ≠ "")
    ∧ (load_checkpoint_s (some (.record cp)) = some cp ↔ cp.version = CHECKPOINT_VERSION) := by
  refine ⟨?_, ?_, ?_⟩
  · unfold validate_checkpoint
    by_cases hh : cp.operation_hash
        = compute_operation_hash H resolve backup_files target_group_id merge
    · rw [if_pos hh, checkSourceFiles_true_iff]
      simp [hh]
    · rw [if_neg hh]
      simp [hh]
  · unfold validate_checkpoint
    by_cases hh : cp.operation_hash
        = compute_operation_hash H resolve backup_files target_group_id merge
    · rw [if_pos hh]
      exact checkSourceFiles_reason files _
    · rw [if_neg hh]
      intro _
      decide
  · show (if cp.version = CHECKPOINT_VERSION then some cp else none) = some cp
        ↔ cp.version = CHECKPOINT_VERSION
    by_cases hv : cp.version = CHECKPOINT_VERSION
    · rw [if_pos hv]
      simp [hv]
    · rw [if_neg hv]
      simp [hv]

/-- C4, witness: a checkpoint whose recorded fingerprint differs is
rejected with a nonempty reason, and a current-version record loads. -/
theorem c4_witness :
    (validate_checkpoint wfiles id id tcp wbf 7 true).2 ≠ ""
    ∧ load_checkpoint_s (some (.record wcp)) = some wcp :=
  ⟨(c4_validation_spec wfiles id id tcp wbf 7 true).2.1 (by decide),
   (c4_validation_spec wfiles id id wcp wbf 7 true).2.2.mpr rfl⟩

/-- C5: the operation fingerprint is a pure function of the resolved,
sorted path set, the target group id and the merge flag, hence invariant
under any permutation of the command-line path list; and — because the
serialized canonical form it digests differs — a collision-free digest
(`hinj`) yields a different fingerprint whenever the target id or the
merge flag changes. -/
theorem c5_operation_hash_spec (H : String → String) (resolve : String → String)
    (f1 f2 : List String) (t t' : Int) (m : Bool)
    (hinj : Function.Injective H) (hperm : f1.Perm f2) :
    compute_operation_hash H resolve f1 t m = compute_operation_hash H resolve f2 t m
    ∧ (t ≠ t' →
        compute_operation_hash H resolve f1 t m ≠ compute_operation_hash H resolve f2 t' m)
    ∧ (∀ m' : Bool, m ≠ m' →
        compute_operation_hash H resolve f1 t m ≠ compute_operation_hash H resolve f2 t m') := by
  have hsort : sortStrings (f1.map resolve) = sortStrings (f2.map resolve) :=
    sortStrings_perm_eq (hperm.map resolve)
  unfold compute_operation_hash
  rw [hsort]
  refine ⟨rfl, ?_, ?_⟩
  · intro hne heq
    exact hne (opContent_target_inj _ _ (hinj (str_append_left_cancel heq)))
  · intro m' hne heq
    have hc := hinj (str_append_left_cancel heq)
    cases m with
    | true =>
      cases m' with
      | true => exact hne rfl
      | false => exact opContent_merge_ne _ _ hc
    | false =>
      cases m' with
      | true => exact opContent_merge_ne _ _ hc.symm
      | false => exact hne rfl

/-- C5, witness: with the identity digest (injective) and identity path
resolution, swapping the two input paths leaves the fingerprint unchanged,
while changing the target id 7→8 or the merge flag changes it. -/
theorem c5_witness :
    compute_operation_hash id id ["/b.json", "/a.json"] 7 true
      = compute_operation_hash id id wbf 7 true
    ∧ compute_operation_hash id id ["/b.json", "/a.json"] 7 true
      ≠ compute_operation_hash id id wbf 8 true
    ∧ compute_operation_hash id id ["/b.json", "/a.json"] 7 true
      ≠ compute_operation_hash id id wbf 7 false := by
  obtain ⟨h1, h2, h3⟩ :=
    c5_operation_hash_spec id id ["/b.json", "/a.json"] wbf 7 8 true
      (fun a b h => h) (by decide)
  exact ⟨h1, h2 (by decide), h3 false (by decide)⟩

/-- C6, counterexample.  The claim says `load_checkpoint` returns `None`
in *every* case other than a well-versioned record — file absent, JSON
parse error, I/O error, or version mismatch.  Two concrete files refute
it.  A file whose bytes parse as a JSON *array* (`[]`): `json.load`
succeeds, then `checkpoint.get('version')` raises `AttributeError` (lists
have no `.get`), which neither `except` clause catches.  And a file whose
bytes are not valid UTF-8: the text-mode read inside `json.load` raises
`UnicodeDecodeError`, which is a `ValueError` but neither a
`json.JSONDecodeError` nor an `IOError`, so it too escapes the `except`
clause.  In both cases the exception propagates instead of `None` being
returned. -/
theorem c6_counterexample :
    (load_checkpoint (some (.json (.arr []))) ≠ .ok none
      ∧ load_checkpoint (some (.json (.arr []))) = .error .attributeError)
    ∧ (load_checkpoint (some .notUtf8) ≠ .ok none
      ∧ load_checkpoint (some .notUtf8) = .error .unicodeDecodeError) :=
  ⟨⟨fun h => Except.noConfusion h, rfl⟩, ⟨fun h => Except.noConfusion h, rfl⟩⟩

/-- C6 (amended): `load_checkpoint` returns the parsed record only when
the file exists, its bytes decode as UTF-8 and parse as a JSON *object*,
and that object's `version` entry equals the expected version; it returns
`None` when the file is absent, the read raises `IOError`, the text is
valid UTF-8 but not valid JSON, or the object's version entry is missing
or differs; but two error paths escape the `except` clause and propagate
instead of returning `None`: bytes that are not valid UTF-8 raise
`UnicodeDecodeError`, and a file parsing to a non-object JSON value makes
`.get` raise `AttributeError`. -/
theorem c6_load_characterization :
    load_checkpoint none = .ok none
    ∧ load_checkpoint (some .garbage) = .ok none
    ∧ load_checkpoint (some .unreadable) = .ok none
    ∧ load_checkpoint (some .notUtf8) = .error .unicodeDecodeError
    ∧ (∀ fields, load_checkpoint (some (.json (.obj fields))) =
        match jget "version" fields with
        | some v => if pyEqInt v CHECKPOINT_VERSION then .ok (some (.obj fields)) else .ok none
        | none => .ok none)
    ∧ (∀ j : JVal, (∀ fields, j ≠ .obj fields) →
        load_checkpoint (some (.json j)) = .error .attributeError) := by
  refine ⟨rfl, rfl, rfl, rfl, fun fields => rfl, fun j hj => ?_⟩
  cases j with
  | obj fields => exact absurd rfl (hj fields)
  | null => rfl
  | bool b => rfl
  | int n => rfl
  | float q => rfl
  | str s => rfl
  | arr l => rfl

/-- C6, witness: a JSON string document makes the load raise
`AttributeError`, while an absent file loads as `None`. -/
theorem c6_witness :
    load_checkpoint (some (.json (.str "boom"))) = .error .attributeError
    ∧ load_checkpoint none = .ok none :=
  ⟨c6_load_characterization.2.2.2.2.2 (.str "boom") (fun _ h => JVal.noConfusion h),
   c6_load_characterization.1⟩

/-- C8, counterexample.  The claim says `save_checkpoint(record)` followed
by `load_checkpoint()` yields a record equal to the original for *every*
field.  But `save_checkpoint` first overwrites `checkpoint['updated_at']`
with the current time (source line 79): saving `tcp` (whose `updated_at`
is `"A"`) at time `"B"` and loading back yields a record whose
`updated_at` is `"B"`, not the original record. -/
theorem c8_counterexample :
    load_checkpoint (some (save_checkpoint tcp "B").2) ≠ .ok (some (checkpointToJson tcp)) := by
  intro h
  have h1 : load_checkpoint (some (save_checkpoint tcp "B").2)
      = .ok (some (checkpointToJson (stampUpdated tcp "B"))) := rfl
  rw [h1] at h
  simp [checkpointToJson, stampUpdated, tcp] at h

/-- C8 (amended): for every record carrying the current schema version,
`save_checkpoint` followed by `load_checkpoint` returns exactly the
*saved* record — every field of the original unchanged except
`updated_at`, which `save_checkpoint` stamps with the save time (the same
mutation it applies to the in-memory record). -/
theorem c8_roundtrip_amended (c : Checkpoint) (now : String)
    (hver : c.version = CHECKPOINT_VERSION) :
    load_checkpoint (some (save_checkpoint c now).2)
      = .ok (some (checkpointToJson (stampUpdated c now))) := by
  obtain ⟨v, ca, ua, oh, tg, tt, sf, sfh, me, tm, li, lm, sc, fc, fm, es⟩ := c
  have hv : v = 1 := hver
  subst hv
  rfl

/-- C8, witness: the round trip at `tcp` saved at time `"B"`. -/
theorem c8_witness :
    load_checkpoint (some (save_checkpoint tcp "B").2)
      = .ok (some (checkpointToJson (stampUpdated tcp "B"))) :=
  c8_roundtrip_amended tcp "B" rfl

/-! ## Driver path lemmas -/

theorem restore_resume_eq (files : String → Option FileData) (H resolve : String → String)
    (promptChoice : Choice) (confirmYes : Bool) (transport : Int → Nat → SendOutcome)
    (targetId : Int) (targetTitle : String) (now : String) (elapsedAt : Int → Rat)
    (backup_files : List String) (merge : Bool) (cp : Checkpoint)
    (hver : cp.version = CHECKPOINT_VERSION)
    (hvalid : (validate_checkpoint files H resolve cp backup_files targetId merge).1 = true)
    (hne : orderedMessages files backup_files merge ≠ []) :
    restore_messages true files (some (.record cp)) H resolve .resume promptChoice confirmYes
        transport targetId targetTitle now elapsedAt backup_files merge
      = runResume transport (orderedMessages files backup_files merge) now elapsedAt
          (some (.record cp)) confirmYes cp := by
  have hload : load_checkpoint_s (some (.record cp)) = some cp := by
    show (if cp.version = CHECKPOINT_VERSION then some cp else none) = some cp
    rw [if_pos hver]
  simp only [restore_messages, chosenAction, hload, hvalid, hne]
  simp

theorem runResume_eq_loop (transport : Int → Nat → SendOutcome) (msgs : List Message)
    (now : String) (elapsedAt : Int → Rat) (ckptFile : Option CkptFile) (cp : Checkpoint) :
    runResume transport msgs now elapsedAt ckptFile true cp
      = runSendLoop transport msgs now elapsedAt cp (cp.last_successful_index + 1)
          cp.success_count cp.failed_count cp.failed_message_ids := by
  by_cases h0 : cp.last_successful_index + 1 = 0 <;> simp [runResume, h0]

theorem restore_fresh_eq (files : String → Option FileData) (H resolve : String → String)
    (mode : Mode) (promptChoice : Choice) (confirmYes : Bool)
    (transport : Int → Nat → SendOutcome)
    (targetId : Int) (targetTitle : String) (now : String) (elapsedAt : Int → Rat)
    (backup_files : List String) (merge : Bool)
    (hne : orderedMessages files backup_files merge ≠ []) :
    restore_messages true files none H resolve mode promptChoice confirmYes
        transport targetId targetTitle now elapsedAt backup_files merge
      = runFresh files H resolve none confirmYes transport targetId targetTitle now
          elapsedAt backup_files merge (orderedMessages files backup_files merge) := by
  simp only [restore_messages, hne]
  simp [load_checkpoint_s]

theorem restore_restart_eq (files : String → Option FileData) (H resolve : String → String)
    (confirmYes : Bool) (transport : Int → Nat → SendOutcome)
    (targetId : Int) (targetTitle : String) (now : String) (elapsedAt : Int → Rat)
    (backup_files : List String) (merge : Bool) (cp : Checkpoint)
    (hver : cp.version = CHECKPOINT_VERSION)
    (hvalid : (validate_checkpoint files H resolve cp backup_files targetId merge).1 = true)
    (hne : orderedMessages files backup_files merge ≠ []) :
    restore_messages true files (some (.record cp)) H resolve .prompt .restart confirmYes
        transport targetId targetTitle now elapsedAt backup_files merge
      = runFresh files H resolve none confirmYes transport targetId targetTitle now
          elapsedAt backup_files merge (orderedMessages files backup_files merge) := by
  have hload : load_checkpoint_s (some (.record cp)) = some cp := by
    show (if cp.version = CHECKPOINT_VERSION then some cp else none) = some cp
    rw [if_pos hver]
  simp only [restore_messages, chosenAction, hload, hvalid, hne]
  simp

theorem runFresh_created (files : String → Option FileData) (H resolve : String → String)
    (fileAtCreate : Option CkptFile) (confirmYes : Bool)
    (transport : Int → Nat → SendOutcome) (targetId : Int) (targetTitle : String)
    (now : String) (elapsedAt : Int → Rat) (backup_files : List String) (merge : Bool)
    (msgs : List Message) (c : Checkpoint)
    (hc : create_checkpoint files H resolve now backup_files targetId targetTitle merge
        (msgs.length : Int) = some c) :
    runFresh files H resolve fileAtCreate confirmYes transport targetId targetTitle now
        elapsedAt backup_files merge msgs
      = if confirmYes then
          runSendLoop transport msgs now elapsedAt (stampUpdated c now) 0 0 0 []
        else ⟨some (.record (stampUpdated c now)), .declined, [], [], [], 0, 0, []⟩ := by
  simp only [runFresh, hc]

theorem runFresh_aborted (files : String → Option FileData) (H resolve : String → String)
    (fileAtCreate : Option CkptFile) (confirmYes : Bool)
    (transport : Int → Nat → SendOutcome) (targetId : Int) (targetTitle : String)
    (now : String) (elapsedAt : Int → Rat) (backup_files : List String) (merge : Bool)
    (msgs : List Message)
    (hc : create_checkpoint files H resolve now backup_files targetId targetTitle merge
        (msgs.length : Int) = none) :
    runFresh files H resolve fileAtCreate confirmYes transport targetId targetTitle now
        elapsedAt backup_files merge msgs
      = mkNoEffect fileAtCreate .aborted := by
  simp only [runFresh, hc]

theorem create_checkpoint_fresh (files : String → Option FileData) (H resolve : String → String)
    (now : String) (backup_files : List String) (targetId : Int) (targetTitle : String)
    (merge : Bool) (total : Int) (c : Checkpoint)
    (hc : create_checkpoint files H resolve now backup_files targetId targetTitle merge total
        = some c) :
    c.last_successful_index = -1 ∧ c.success_count = 0 ∧ c.failed_count = 0
    ∧ c.failed_message_ids = [] ∧ c.version = CHECKPOINT_VERSION := by
  unfold create_checkpoint at hc
  cases hh : hashAll files (backup_files.map resolve) with
  | none => rw [hh] at hc; simp at hc
  | some hs =>
    rw [hh] at hc
    simp only [Option.map_some'] at hc
    obtain rfl := (Option.some.inj hc).symm
    exact ⟨rfl, rfl, rfl, rfl, rfl⟩

/-- C2: a run resumed from a valid current-version checkpoint (auto-resume
mode, confirmation passed when the resume lands back at index 0) invokes
the transport exactly on the indices `last_successful_index + 1 … n-1` of
the ordered message list, in order: nothing at or below
`last_successful_index` is re-sent, nothing above it is skipped.
Moreover the `j`-th record saved during the loop has
`last_successful_index` equal to the `j`-th attempted index, so a crash
immediately after any `save_checkpoint` — before the inter-item delay —
leaves on disk precisely the index just processed, and this same theorem
applied to the next run makes it start exactly one past it.  (The
hypothesis `-1 ≤ last_successful_index` is the invariant of every record
this program writes; below it, Python's negative-index wraparound is not
modelled.) -/
theorem c2_resume_exact (files : String → Option FileData) (H resolve : String → String)
    (promptChoice : Choice) (transport : Int → Nat → SendOutcome)
    (targetId : Int) (targetTitle : String) (now : String) (elapsedAt : Int → Rat)
    (backup_files : List String) (merge : Bool) (cp : Checkpoint)
    (hver : cp.version = CHECKPOINT_VERSION)
    (hvalid : (validate_checkpoint files H resolve cp backup_files targetId merge).1 = true)
    (_hk : -1 ≤ cp.last_successful_index)
    (hne : orderedMessages files backup_files merge ≠ []) :
    (restore_messages true files (some (.record cp)) H resolve .resume promptChoice true
        transport targetId targetTitle now elapsedAt backup_files merge).attempted
      = intRange (cp.last_successful_index + 1)
          (orderedMessages files backup_files merge).length
    ∧ (∀ i ∈ (restore_messages true files (some (.record cp)) H resolve .resume promptChoice
          true transport targetId targetTitle now elapsedAt backup_files merge).attempted,
        cp.last_successful_index < i
        ∧ i < ((orderedMessages files backup_files merge).length : Int))
    ∧ (∀ i : Int, cp.last_successful_index < i →
        i < ((orderedMessages files backup_files merge).length : Int) →
        i ∈ (restore_messages true files (some (.record cp)) H resolve .resume promptChoice
          true transport targetId targetTitle now elapsedAt backup_files merge).attempted)
    ∧ (restore_messages true files (some (.record cp)) H resolve .resume promptChoice true
        transport targetId targetTitle now elapsedAt backup_files merge).saved.map
          (fun c0 => c0.last_successful_index)
      = (restore_messages true files (some (.record cp)) H resolve .resume promptChoice true
          transport targetId targetTitle now elapsedAt backup_files merge).attempted
    ∧ (restore_messages true files (some (.record cp)) H resolve .resume promptChoice true
        transport targetId targetTitle now elapsedAt backup_files merge).outcome = .completed
    ∧ (restore_messages true files (some (.record cp)) H resolve .resume promptChoice true
        transport targetId targetTitle now elapsedAt backup_files merge).checkpointFile
      = none := by
  have hmain : restore_messages true files (some (.record cp)) H resolve .resume promptChoice
      true transport targetId targetTitle now elapsedAt backup_files merge
      = runSendLoop transport (orderedMessages files backup_files merge) now elapsedAt cp
          (cp.last_successful_index + 1) cp.success_count cp.failed_count
          cp.failed_message_ids :=
    (restore_resume_eq files H resolve promptChoice true transport targetId targetTitle now
        elapsedAt backup_files merge cp hver hvalid hne).trans
      (runResume_eq_loop transport (orderedMessages files backup_files merge) now elapsedAt
        (some (.record cp)) cp)
  obtain ⟨s1, s2, s3, s4, _, _⟩ := runSendLoop_spec transport
    (orderedMessages files backup_files merge) now elapsedAt cp
    (cp.last_successful_index + 1) cp.success_count cp.failed_count cp.failed_message_ids
  rw [hmain]
  refine ⟨s3, ?_, ?_, ?_, s1, s2⟩
  · intro i hi
    rw [s3] at hi
    have := intRange_mem.mp hi
    omega
  · intro i h1 h2
    rw [s3]
    exact intRange_mem.mpr ⟨by omega, h2⟩
  · rw [s4, s3]

/-- C2, witness: resuming `wcp` (delivered up to index 0 of 3) attempts
exactly indices 1 and 2, the saved records carry those indices, the run
completes and clears the checkpoint. -/
theorem c2_witness :
    (restore_messages true wfiles (some (.record wcp)) id id .resume .cancel true
        wtransport 7 "G" "t1" (fun _ => 0) wbf true).attempted = intRange 1 3
    ∧ (2 : Int) ∈ (restore_messages true wfiles (some (.record wcp)) id id .resume .cancel
        true wtransport 7 "G" "t1" (fun _ => 0) wbf true).attempted
    ∧ (restore_messages true wfiles (some (.record wcp)) id id .resume .cancel true
        wtransport 7 "G" "t1" (fun _ => 0) wbf true).saved.map
          (fun c0 => c0.last_successful_index)
      = (restore_messages true wfiles (some (.record wcp)) id id .resume .cancel true
          wtransport 7 "G" "t1" (fun _ => 0) wbf true).attempted
    ∧ (restore_messages true wfiles (some (.record wcp)) id id .resume .cancel true
        wtransport 7 "G" "t1" (fun _ => 0) wbf true).outcome = .completed
    ∧ (restore_messages true wfiles (some (.record wcp)) id id .resume .cancel true
        wtransport 7 "G" "t1" (fun _ => 0) wbf true).checkpointFile = none := by
  obtain ⟨h1, _, h3, h4, h5, h6⟩ := c2_resume_exact wfiles id id .cancel wtransport 7 "G"
    "t1" (fun _ => 0) wbf true wcp rfl (by decide) (by decide) (by decide)
  exact ⟨h1, h3 2 (by decide) (by decide), h4, h5, h6⟩

/-- C7: when the transport fails on every attempt for one item,
`send_message_with_retry` returns `Failed` (it is a total function — every
exception is caught by the `except` clauses, so nothing propagates), the
driver records that item's `message_id` in the failed list and its result
as `(i, false)`, still processes every index of the run, completes, and
clears the checkpoint at the end despite the permanent per-item failure. -/
theorem c7_failed_item_recorded (files : String → Option FileData)
    (H resolve : String → String) (mode : Mode) (promptChoice : Choice)
    (transport : Int → Nat → SendOutcome) (targetId : Int) (targetTitle : String)
    (now : String) (elapsedAt : Int → Rat) (backup_files : List String) (merge : Bool)
    (c : Checkpoint) (i : Int)
    (hc : create_checkpoint files H resolve now backup_files targetId targetTitle merge
        ((orderedMessages files backup_files merge).length : Int) = some c)
    (hne : orderedMessages files backup_files merge ≠ [])
    (hi : 0 ≤ i)
    (hilen : i < ((orderedMessages files backup_files merge).length : Int))
    (hfail : (send_message_with_retry (transport i)).success = false) :
    (restore_messages true files none H resolve mode promptChoice true transport targetId
        targetTitle now elapsedAt backup_files merge).outcome = .completed
    ∧ (restore_messages true files none H resolve mode promptChoice true transport targetId
        targetTitle now elapsedAt backup_files merge).checkpointFile = none
    ∧ (restore_messages true files none H resolve mode promptChoice true transport targetId
        targetTitle now elapsedAt backup_files merge).attempted
      = intRange 0 (orderedMessages files backup_files merge).length
    ∧ (i, false) ∈ (restore_messages true files none H resolve mode promptChoice true
        transport targetId targetTitle now elapsedAt backup_files merge).results
    ∧ (pyIndex (orderedMessages files backup_files merge) i).message_id
      ∈ (restore_messages true files none H resolve mode promptChoice true transport
          targetId targetTitle now elapsedAt backup_files merge).failed_ids := by
  have hmain : restore_messages true files none H resolve mode promptChoice true transport
      targetId targetTitle now elapsedAt backup_files merge
      = runSendLoop transport (orderedMessages files backup_files merge) now elapsedAt
          (stampUpdated c now) 0 0 0 [] := by
    rw [restore_fresh_eq files H resolve mode promptChoice true transport targetId
      targetTitle now elapsedAt backup_files merge hne]
    rw [runFresh_created files H resolve none true transport targetId targetTitle now
      elapsedAt backup_files merge (orderedMessages files backup_files merge) c hc]
    simp
  obtain ⟨s1, s2, s3, _, s5, s6⟩ := runSendLoop_spec transport
    (orderedMessages files backup_files merge) now elapsedAt (stampUpdated c now) 0 0 0 []
  rw [hmain]
  have hmem : i ∈ intRange 0 (orderedMessages files backup_files merge).length :=
    intRange_mem.mpr ⟨hi, hilen⟩
  refine ⟨s1, s2, s3, ?_, ?_⟩
  · rw [s6]
    exact List.mem_map.mpr ⟨i, hmem, by rw [hfail]⟩
  · rw [s5]
    refine List.mem_append_right _ (List.mem_map.mpr ⟨i, List.mem_filter.mpr ⟨hmem, ?_⟩, rfl⟩)
    rw [hfail]
    rfl

/-- C7, witness: over `wfiles`, with a transport that always errors on
index 1, the fresh run completes, clears the checkpoint, attempts all of
0,1,2, records `(1, false)`, and lists message id 10 (the item sorted to
index 1) as failed. -/
theorem c7_witness :
    (restore_messages true wfiles none id id .prompt .cancel true wtransport 7 "G" "t1"
        (fun _ => 0) wbf true).outcome = .completed
    ∧ (restore_messages true wfiles none id id .prompt .cancel true wtransport 7 "G" "t1"
        (fun _ => 0) wbf true).checkpointFile = none
    ∧ (restore_messages true wfiles none id id .prompt .cancel true wtransport 7 "G" "t1"
        (fun _ => 0) wbf true).attempted = intRange 0 3
    ∧ ((1 : Int), false) ∈ (restore_messages true wfiles none id id .prompt .cancel true
        wtransport 7 "G" "t1" (fun _ => 0) wbf true).results
    ∧ (pyIndex (orderedMessages wfiles wbf true) 1).message_id
      ∈ (restore_messages true wfiles none id id .prompt .cancel true wtransport 7 "G" "t1"
          (fun _ => 0) wbf true).failed_ids := by
  obtain ⟨h1, h2, h3, h4, h5⟩ := c7_failed_item_recorded wfiles id id .prompt .cancel
    wtransport 7 "G" "t1" (fun _ => 0) wbf true wfresh 1 (by decide) (by decide)
    (by decide) (by decide) (by decide)
  exact ⟨h1, h2, h3, h4, h5⟩

/-- C9: when a run starts from index 0 — fresh (no checkpoint file) or
after the user chose restart on a valid checkpoint — a new record with
`last_successful_index = -1` and zeroed counters is created and persisted
(it is what `save_checkpoint` wrote: `stampUpdated c now`) *before* the
final confirmation prompt; declining the confirmation then returns without
attempting any send, but the freshly persisted checkpoint stays on disk —
declining is not side-effect free. -/
theorem c9_decline_persists (files : String → Option FileData) (H resolve : String → String)
    (transport : Int → Nat → SendOutcome) (targetId : Int) (targetTitle : String)
    (now : String) (elapsedAt : Int → Rat) (backup_files : List String) (merge : Bool)
    (c : Checkpoint)
    (hc : create_checkpoint files H resolve now backup_files targetId targetTitle merge
        ((orderedMessages files backup_files merge).length : Int) = some c)
    (hne : orderedMessages files backup_files merge ≠ []) :
    (c.last_successful_index = -1 ∧ c.success_count = 0 ∧ c.failed_count = 0
      ∧ c.failed_message_ids = [])
    ∧ (∀ (mode : Mode) (promptChoice : Choice),
        restore_messages true files none H resolve mode promptChoice false transport
            targetId targetTitle now elapsedAt backup_files merge
          = ⟨some (.record (stampUpdated c now)), .declined, [], [], [], 0, 0, []⟩)
    ∧ (∀ cp : Checkpoint, cp.version = CHECKPOINT_VERSION →
        (validate_checkpoint files H resolve cp backup_files targetId merge).1 = true →
        restore_messages true files (some (.record cp)) H resolve .prompt .restart false
            transport targetId targetTitle now elapsedAt backup_files merge
          = ⟨some (.record (stampUpdated c now)), .declined, [], [], [], 0, 0, []⟩) := by
  obtain ⟨hf1, hf2, hf3, hf4, _⟩ := create_checkpoint_fresh files H resolve now backup_files
    targetId targetTitle merge ((orderedMessages files backup_files merge).length : Int) c hc
  refine ⟨⟨hf1, hf2, hf3, hf4⟩, ?_, ?_⟩
  · intro mode promptChoice
    rw [restore_fresh_eq files H resolve mode promptChoice false transport targetId
      targetTitle now elapsedAt backup_files merge hne]
    rw [runFresh_created files H resolve none false transport targetId targetTitle now
      elapsedAt backup_files merge (orderedMessages files backup_files merge) c hc]
    simp
  · intro cp hver hvalid
    rw [restore_restart_eq files H resolve false transport targetId targetTitle now
      elapsedAt backup_files merge cp hver hvalid hne]
    rw [runFresh_created files H resolve none false transport targetId targetTitle now
      elapsedAt backup_files merge (orderedMessages files backup_files merge) c hc]
    simp

/-- C9, witness: declining the confirmation of a fresh `wbf` run leaves
the freshly written record (with `last_successful_index = -1`) on disk and
sends nothing. -/
theorem c9_witness :
    wfresh.last_successful_index = -1
    ∧ restore_messages true wfiles none id id .prompt .cancel false wtransport 7 "G" "t1"
        (fun _ => 0) wbf true
      = ⟨some (.record (stampUpdated wfresh "t1")), .declined, [], [], [], 0, 0, []⟩
    ∧ restore_messages true wfiles (some (.record wcp)) id id .prompt .restart false
        wtransport 7 "G" "t1" (fun _ => 0) wbf true
      = ⟨some (.record (stampUpdated wfresh "t1")), .declined, [], [], [], 0, 0, []⟩ := by
  obtain ⟨hf, hfresh, hrestart⟩ := c9_decline_persists wfiles id id wtransport 7 "G" "t1"
    (fun _ => 0) wbf true wfresh (by decide) (by decide)
  exact ⟨hf.1, hfresh .prompt .cancel, hrestart wcp rfl (by decide)⟩

/-- C10: with an existing backup file set in which one listed input is
missing, message loading skips the missing file with a warning and
proceeds with the remaining files (the ordered list equals the one built
from the existing files only); but `create_checkpoint` still hashes every
resolved input path, `compute_file_hash` raises `FileNotFoundError` on the
missing one, and the run aborts through the generic exception handler
before any message is sent — nothing is attempted and no checkpoint is
written. -/
theorem c10_missing_input_aborts (files : String → Option FileData)
    (H resolve : String → String) (mode : Mode) (promptChoice : Choice) (confirmYes : Bool)
    (transport : Int → Nat → SendOutcome) (targetId : Int) (targetTitle : String)
    (now : String) (elapsedAt : Int → Rat) (backup_files : List String) (merge : Bool)
    (f : String)
    (hres : ∀ p, files (resolve p) = files p)
    (hmem : f ∈ backup_files) (hmiss : files f = none)
    (hne : orderedMessages files backup_files merge ≠ []) :
    orderedMessages files backup_files merge
      = orderedMessages files (backup_files.filter (fun p => (files p).isSome)) merge
    ∧ restore_messages true files none H resolve mode promptChoice confirmYes transport
        targetId targetTitle now elapsedAt backup_files merge
      = mkNoEffect none .aborted := by
  constructor
  · exact orderedMessages_skip_missing files backup_files merge
  · have hcreate : create_checkpoint files H resolve now backup_files targetId targetTitle
        merge ((orderedMessages files backup_files merge).length : Int) = none := by
      unfold create_checkpoint
      rw [hashAll_eq_none files (backup_files.map resolve) (resolve f)
        (List.mem_map_of_mem resolve hmem) ((hres f).trans hmiss)]
      rfl
    rw [restore_fresh_eq files H resolve mode promptChoice confirmYes transport targetId
      targetTitle now elapsedAt backup_files merge hne]
    exact runFresh_aborted files H resolve none confirmYes transport targetId targetTitle
      now elapsedAt backup_files merge (orderedMessages files backup_files merge) hcreate

/-- C10, witness: `wfiles` with the input list `[/a.json, /missing.json]`:
loading proceeds with `/a.json` alone, and the fresh run aborts with
nothing attempted. -/
theorem c10_witness :
    orderedMessages wfiles ["/a.json", "/missing.json"] true
      = orderedMessages wfiles
          ((["/a.json", "/missing.json"] : List String).filter
            (fun p => (wfiles p).isSome)) true
    ∧ restore_messages true wfiles none id id .prompt .cancel true wtransport 7 "G" "t1"
        (fun _ => 0) ["/a.json", "/missing.json"] true
      = mkNoEffect none .aborted := by
  obtain ⟨h1, h2⟩ := c10_missing_input_aborts wfiles id id .prompt .cancel true wtransport
    7 "G" "t1" (fun _ => 0) ["/a.json", "/missing.json"] true "/missing.json"
    (fun p => rfl) (by decide) rfl (by decide)
  exact ⟨h1, h2⟩
